import Mathlib

/-!
Verification development for the transport/session layer in `server.py`
(repository SpaceScuffle). The Python classes and methods are shallowly
embedded as Lean definitions below:

* `JVal` models a JSON value as produced by `json.loads` / consumed by
  `json.dumps` (only the shapes this protocol uses; the nested settings
  object `\x7b"timeout": t\x7d` is modelled by the dedicated constructor
  `jsettings`).
* `TMsg` models the `TransportMessage` class hierarchy as a tagged variant:
  `TransportHandshakeMessage`, `TransportHandshakeResponseMessage`,
  `TransportHeartbeatMessage`, `TransportDisconnectNotice`,
  `TransportGeneralMessage`, `TransportGeneralResponse`. The `response`
  flag is determined by the class constructor and is therefore not a field
  of the variant.
* `toDict` embeds the per-class `toDict` methods (the wire encoder);
  `fromDict` / `fromBytes` embed `TransportMessage.fromBytes` (the wire
  decoder). Python exceptions raised during decoding (`KeyError`,
  `TypeError` from a constructor called with missing arguments,
  `NotImplementedError`, a `json.loads` failure) are modelled by
  `Except.error` with a `DecErr` tag; the `None` that `fromBytes` returns
  for an unrecognized type string is modelled by `Except.ok none`.
* `Server` embeds the mutable state of the `Server` class: `_clients` and
  `_messageCache` are Python dicts, modelled as insertion-ordered
  association lists with `dictGet` / `dictSet` mirroring `d.get(k)` and
  `d[k] = v` (replacement keeps the entry position, as CPython does);
  `_sendQueue` is a deque of `(encoded bytes, address)` pairs. The class
  attribute counter `Server.Client.id` is the field `nextId`. The socket,
  host/port and `_active` fields are transport plumbing outside the
  embedded state.
* `createClient`, `updateClient`, `cacheMessage`, `isInCache`,
  `sendResponse`, `cleanup`, `getAll` and `sendAll` embed the methods
  `_createClient`, `_updateClient`, `_cacheMessage`, `_isInCache`,
  `sendResponse` (non-immediate branch), `cleanup`, `getAll` and
  `sendAll`. Wall-clock reads `time()` are threaded as an explicit `now`
  argument of type `Int`; identities, message sequence numbers and
  endpoints are `Nat`. `getAll` takes the list of datagrams drained by
  `_dispatchMessages` (socket input) as a parameter; an exception escaping
  the per-datagram loop is modelled by `CycleResult.err`, which keeps the
  state mutated so far (the Python object keeps its mutations) while the
  accumulated output list is lost to the caller. Field values of a wire
  dict that have a JSON type the protocol never produces for that field
  are modelled as a `malformed` decode error.
-/

/-- JSON values appearing on the wire in this protocol. -/
inductive JVal where
  | jnum (n : Nat)
  | jstr (s : String)
  | jbool (b : Bool)
  | jnull
  | jsettings (timeout : Int)
  deriving DecidableEq, Repr

/-- The tagged-variant view of the TransportMessage class hierarchy. -/
inductive TMsg where
  | handshakeReq (address : Nat)
  | handshakeResp (address : Nat) (id : Nat) (settings : Int)
  | heartbeat (address : Nat) (id : Nat)
  | disconnectNotice (address : Nat) (id : Nat)
  | generalMsg (address : Nat) (data : String) (id : Nat) (reliable : Bool)
      (messageId : Option Nat)
  | generalResp (address : Nat) (id : Nat) (messageId : Option Nat)
  deriving DecidableEq, Repr

/-- The transport endpoint attached to a message (`self.address`). -/
def TMsg.address : TMsg → Nat
  | .handshakeReq a => a
  | .handshakeResp a _ _ => a
  | .heartbeat a _ => a
  | .disconnectNotice a _ => a
  | .generalMsg a _ _ _ _ => a
  | .generalResp a _ _ => a

/-- Python `d.get(k)` on an insertion-ordered dict. -/
def dictGet {α β : Type} [DecidableEq α] (k : α) : List (α × β) → Option β
  | [] => none
  | (k2, v) :: rest => if k2 = k then some v else dictGet k rest

/-- Python `d[k] = v`: replace in place if the key exists, append otherwise. -/
def dictSet {α β : Type} [DecidableEq α] (k : α) (v : β) :
    List (α × β) → List (α × β)
  | [] => [(k, v)]
  | (k2, v2) :: rest =>
      if k2 = k then (k2, v) :: rest else (k2, v2) :: dictSet k v rest

/-- Encoding of an optional messageId field (`None` serializes to `null`). -/
def encodeMid : Option Nat → JVal
  | none => .jnull
  | some n => .jnum n

/-- The per-class `toDict` serializers (wire encoder). The endpoint is not
part of the encoding. `TransportHeartbeatMessage` defines no `toDict`, so
it inherits the base one, which drops the `id` field. -/
def toDict : TMsg → List (String × JVal)
  | .handshakeReq _ =>
      [("type", .jstr "handshake"), ("response", .jbool false)]
  | .handshakeResp _ i st =>
      [("type", .jstr "handshake"), ("response", .jbool true),
       ("id", .jnum i), ("settings", .jsettings st)]
  | .heartbeat _ _ =>
      [("type", .jstr "heartbeat"), ("response", .jbool false)]
  | .disconnectNotice _ i =>
      [("type", .jstr "disconnectNotice"), ("response", .jbool false),
       ("id", .jnum i)]
  | .generalMsg _ d i rel mid =>
      [("type", .jstr "general"), ("response", .jbool false),
       ("id", .jnum i), ("reliable", .jbool rel),
       ("messageId", encodeMid mid), ("data", .jstr d)]
  | .generalResp _ i mid =>
      [("type", .jstr "general"), ("response", .jbool true),
       ("id", .jnum i), ("reliable", .jbool true),
       ("messageId", encodeMid mid), ("data", .jstr "")]

/-- Decode-time failures of `TransportMessage.fromBytes`, one tag per kind
of Python exception the method can raise. -/
inductive DecErr where
  | malformed
  | keyErr
  | typeErr
  | notImpl
  deriving DecidableEq, Repr

/-- The body of `TransportMessage.fromBytes` after `json.loads` succeeded:
branch on `data["type"]`. An unrecognized type string falls through every
branch and the method returns `None` (`.ok none` here). The `handshake`
branch with an `id` present calls the `TransportHandshakeResponseMessage`
constructor with two of its four required arguments, a `TypeError`. -/
def fromDict (address : Nat) (d : List (String × JVal)) :
    Except DecErr (Option TMsg) :=
  match dictGet "type" d with
  | none => .error .keyErr
  | some ty =>
    if ty = .jstr "handshake" then
      match dictGet "id" d with
      | none => .ok (some (.handshakeReq address))
      | some .jnull => .ok (some (.handshakeReq address))
      | some _ => .error .typeErr
    else if ty = .jstr "heartbeat" then
      match dictGet "id" d with
      | none => .error .keyErr
      | some (.jnum i) => .ok (some (.heartbeat address i))
      | some _ => .error .malformed
    else if ty = .jstr "ttl" then .error .notImpl
    else if ty = .jstr "general" then
      match dictGet "data" d, dictGet "id" d, dictGet "reliable" d with
      | some (.jstr dd), some (.jnum i), some (.jbool rel) =>
          let mid : Option Nat :=
            match dictGet "messageId" d with
            | some (.jnum m) => some m
            | _ => none
          .ok (some (.generalMsg address dd i rel mid))
      | none, _, _ => .error .keyErr
      | _, none, _ => .error .keyErr
      | _, _, none => .error .keyErr
      | _, _, _ => .error .malformed
  else .ok none

/-- One raw datagram as drained from the socket: the parse of its payload
(`none` when `json.loads` fails on the bytes) and the sender endpoint. -/
structure Datagram where
  payload : Option (List (String × JVal))
  address : Nat
  deriving DecidableEq, Repr

/-- Method `TransportMessage.fromBytes` applied to a raw datagram. -/
def fromBytes (dg : Datagram) : Except DecErr (Option TMsg) :=
  match dg.payload with
  | none => .error .malformed
  | some d => fromDict dg.address d

/-- A datagram carrying the encoding of `t`, sent from `t.address`. -/
def dgOf (t : TMsg) : Datagram := ⟨some (toDict t), t.address⟩

/-- One entry of `_sendQueue`: encoded dict and destination address. -/
abbrev QEntry := List (String × JVal) × Nat

/-- Class `Server.Client`: identity, last observed endpoint, `lastSeen` stamp. -/
structure Client where
  id : Nat
  address : Nat
  lastSeen : Int
  deriving DecidableEq, Repr

/-- The mutable state of the `Server` class. `nextId` is the class-level
counter `Server.Client.id` (0 before any client is created). -/
structure Server where
  timeout : Int
  messageTimeout : Int
  cleanupPeriod : Int
  lastCleanup : Int
  nextId : Nat
  sendQueue : List QEntry
  clients : List (Nat × Client)
  messageCache : List ((Nat × Option Nat) × Int)
  deriving DecidableEq, Repr

/-- The state `Server.__init__` builds at time `now` (socket fields and
host/port omitted; defaults `timeout=5`, `messageTimeout=10`,
`cleanupPeriod=5`). -/
def initServer (now : Int) : Server :=
  { timeout := 5, messageTimeout := 10, cleanupPeriod := 5,
    lastCleanup := now, nextId := 0, sendQueue := [],
    clients := [], messageCache := [] }

/-- Method `Server.getSettings`. -/
def getSettings (s : Server) : Int := s.timeout

/-- Method `Server.sendResponse` with `immediate=False`: encode and append to the
send queue, addressed to the message's endpoint. -/
def sendResponse (s : Server) (t : TMsg) : Server :=
  { s with sendQueue := s.sendQueue ++ [(toDict t, t.address)] }

/-- Method `Server._createClient`: allocate the next identity via
`Server.Client.genId`, store the new client, return its identity. -/
def createClient (s : Server) (address : Nat) (now : Int) : Nat × Server :=
  let cid := s.nextId + 1
  (cid,
   { s with nextId := cid,
            clients := dictSet cid ⟨cid, address, now⟩ s.clients })

/-- Method `Server._updateClient`: when the identity is known, overwrite the
stored client's `address` with the message's endpoint. Nothing else of the
client record is written (in particular `lastSeen` is left as it was). -/
def updateClient (s : Server) (i : Nat) (address : Nat) : Server :=
  match dictGet i s.clients with
  | none => s
  | some c =>
      { s with clients := dictSet i { c with address := address } s.clients }

/-- Method `Server._cacheMessage`: `self._messageCache[cMessage] = cMessage`,
keyed by `(clientId, messageId)`; the stored value carries the `received`
stamp of the newly built record. -/
def cacheMessage (s : Server) (cid : Nat) (mid : Option Nat) (now : Int) :
    Server :=
  { s with messageCache := dictSet (cid, mid) now s.messageCache }

/-- Method `Server._isInCache`: key membership in `_messageCache`. -/
def isInCache (s : Server) (cid : Nat) (mid : Option Nat) : Bool :=
  (dictGet (cid, mid) s.messageCache).isSome

/-- Exceptions escaping the body of the `getAll` loop: a decode failure of
`fromBytes`, or an attribute access on an object lacking it (reading
`.type` on the `None` that `fromBytes` returns for an unknown kind, or
`.reliable` on a message class without that attribute). -/
inductive CycleErr where
  | decodeErr (e : DecErr)
  | attrErr
  deriving DecidableEq, Repr

/-- Outcome of processing one decoded message: normal return with the
payloads appended this step, or an exception with the state as already
mutated when it was raised. -/
inductive StepResult where
  | ok (s : Server) (out : List String)
  | err (s : Server) (e : CycleErr)
  deriving DecidableEq, Repr

/-- The state carried by a step result. -/
def StepResult.state : StepResult → Server
  | .ok s _ => s
  | .err s _ => s

/-- The body of the `getAll` loop for one decoded message `t`, mirroring
the branch structure of `Server.getAll`: the `type == "handshake"` branch
creates a client and enqueues a handshake response; every other kind is
dropped when its identity is unknown, else `_updateClient` runs, heartbeats
stop there, and a reliable general message is acknowledged unconditionally,
then dropped as a duplicate or cached and delivered. A `TransportDisconnectNotice`
reaching the loop would fail reading `tMessage.reliable` after the update
(`fromBytes` can in fact never produce that variant, nor the two response
variants). -/
def processOne (now : Int) (s : Server) (t : TMsg) : StepResult :=
  match t with
  | .handshakeReq addr =>
      let r := createClient s addr now
      .ok (sendResponse r.2 (.handshakeResp addr r.1 (getSettings s))) []
  | .handshakeResp addr _ _ =>
      let r := createClient s addr now
      .ok (sendResponse r.2 (.handshakeResp addr r.1 (getSettings s))) []
  | .heartbeat addr i =>
      match dictGet i s.clients with
      | none => .ok s []
      | some _ => .ok (updateClient s i addr) []
  | .disconnectNotice addr i =>
      match dictGet i s.clients with
      | none => .ok s []
      | some _ => .err (updateClient s i addr) .attrErr
  | .generalMsg addr d i rel mid =>
      match dictGet i s.clients with
      | none => .ok s []
      | some _ =>
          let s1 := updateClient s i addr
          if rel then
            let s2 := sendResponse s1 (.generalResp addr i mid)
            if isInCache s2 i mid then .ok s2 []
            else .ok (cacheMessage s2 i mid now) [d]
          else .ok s1 [d]
  | .generalResp addr i mid =>
      match dictGet i s.clients with
      | none => .ok s []
      | some _ =>
          let s1 := updateClient s i addr
          let s2 := sendResponse s1 (.generalResp addr i mid)
          if isInCache s2 i mid then .ok s2 []
          else .ok (cacheMessage s2 i mid now) [""]

/-- Outcome of a whole `getAll` call: the returned payload list, or an
escaped exception. On an exception the mutations already applied to the
server object persist, while the payloads accumulated so far are lost to
the caller. -/
inductive CycleResult where
  | ok (s : Server) (out : List String)
  | err (s : Server) (e : CycleErr)
  deriving DecidableEq, Repr

/-- Method `Server.getAll`, applied to the datagrams `_dispatchMessages` drained:
decode each in arrival order and run the loop body; no exception handler
surrounds the loop, so the first failure aborts the call. -/
def getAll (now : Int) (s : Server) : List Datagram → CycleResult
  | [] => .ok s []
  | dg :: rest =>
    match fromBytes dg with
    | .error e => .err s (.decodeErr e)
    | .ok none => .err s .attrErr
    | .ok (some t) =>
      match processOne now s t with
      | .err s1 e => .err s1 e
      | .ok s1 out1 =>
        match getAll now s1 rest with
        | .ok s2 out2 => .ok s2 (out1 ++ out2)
        | .err s2 e => .err s2 e

/-- The disconnect notice `Server.cleanup` enqueues for an evicted client:
`TransportMessage.createMessage(client.address, client.id,
"disconnectNotice")`, serialized and addressed to `client.address`. -/
def noticeOf (c : Client) : QEntry :=
  (toDict (.disconnectNotice c.address c.id), c.address)

/-- The client-eviction loop of `Server.cleanup`: walk the registry in
insertion order; a client with `lastSeen < limit` is deleted and a
disconnect notice for it is produced; returns the surviving registry, the
notices in iteration order, and the count of evictions. -/
def cleanupClients (limit : Int) :
    List (Nat × Client) → List (Nat × Client) × List QEntry × Nat
  | [] => ([], [], 0)
  | (k, c) :: rest =>
    let r := cleanupClients limit rest
    if c.lastSeen < limit then (r.1, noticeOf c :: r.2.1, r.2.2 + 1)
    else ((k, c) :: r.1, r.2.1, r.2.2)

/-- Method `Server.cleanup`: gated by `cleanupPeriod`; then evict clients whose
`lastSeen` is older than `now - timeout` (enqueueing one disconnect notice
each) and drop cache entries older than `now - messageTimeout`; returns
the number of clients cleaned. -/
def cleanup (now : Int) (s : Server) : Server × Nat :=
  if s.lastCleanup > now - s.cleanupPeriod then (s, 0)
  else
    let r := cleanupClients (now - s.timeout) s.clients
    let cache :=
      s.messageCache.filter (fun kv => ! decide (kv.2 < now - s.messageTimeout))
    ({ s with lastCleanup := now, clients := r.1,
              sendQueue := s.sendQueue ++ r.2.1, messageCache := cache },
     r.2.2)

/-- Method `Server.sendAll`, parametrized by which transmissions succeed: pop the
queue front, attempt the send, repeat; only the `IndexError` of an empty
queue is caught, so a failing send aborts the loop with the popped entry
already removed. Returns the entries a transmission was attempted for (in
order), the entries still queued afterwards, and whether the call finished
without an escaped exception. -/
def sendAll (sendOk : QEntry → Bool) :
    List QEntry → List QEntry × List QEntry × Bool
  | [] => ([], [], true)
  | e :: rest =>
    if sendOk e then
      let r := sendAll sendOk rest
      (e :: r.1, r.2.1, r.2.2)
    else ([e], rest, false)

/-! Helper lemmas about the dict operations and the state transformers. -/

theorem dictGet_dictSet_self {α β : Type} [DecidableEq α] (k : α) (v : β) :
    ∀ l : List (α × β), dictGet k (dictSet k v l) = some v := by
  intro l
  induction l with
  | nil => simp [dictGet, dictSet]
  | cons hd tl ih =>
    obtain ⟨k2, v2⟩ := hd
    by_cases h : k2 = k
    · simp [dictGet, dictSet, h]
    · simp [dictGet, dictSet, h, ih]

theorem dictGet_dictSet_ne {α β : Type} [DecidableEq α] {k k2 : α} (v : β)
    (h : k2 ≠ k) :
    ∀ l : List (α × β), dictGet k2 (dictSet k v l) = dictGet k2 l := by
  intro l
  have hne : ¬ (k = k2) := fun hh => h hh.symm
  induction l with
  | nil => simp [dictGet, dictSet, hne]
  | cons hd tl ih =>
    obtain ⟨k3, v3⟩ := hd
    by_cases h3 : k3 = k
    · subst h3
      simp [dictGet, dictSet, hne]
    · simp [dictGet, dictSet, h3, ih]

theorem dictSet_length_of_mem {α β : Type} [DecidableEq α] {k : α} {t : β}
    (v : β) : ∀ {l : List (α × β)}, dictGet k l = some t →
    (dictSet k v l).length = l.length := by
  intro l
  induction l with
  | nil => intro h; simp [dictGet] at h
  | cons hd tl ih =>
    obtain ⟨k2, v2⟩ := hd
    intro h
    by_cases h2 : k2 = k
    · simp [dictSet, h2]
    · simp only [dictGet, if_neg h2] at h
      simp [dictSet, h2, ih h]

theorem dictSet_fresh {α β : Type} [DecidableEq α] {k : α} (v : β) :
    ∀ {l : List (α × β)}, dictGet k l = none → dictSet k v l = l ++ [(k, v)] := by
  intro l
  induction l with
  | nil => intro _; rfl
  | cons hd tl ih =>
    obtain ⟨k2, v2⟩ := hd
    intro h
    by_cases h2 : k2 = k
    · simp [dictGet, h2] at h
    · simp only [dictGet, if_neg h2] at h
      simp [dictSet, h2, ih h]

theorem sendResponse_clients (s : Server) (t : TMsg) :
    (sendResponse s t).clients = s.clients := rfl

theorem sendResponse_messageCache (s : Server) (t : TMsg) :
    (sendResponse s t).messageCache = s.messageCache := rfl

theorem sendResponse_nextId (s : Server) (t : TMsg) :
    (sendResponse s t).nextId = s.nextId := rfl

theorem sendResponse_sendQueue (s : Server) (t : TMsg) :
    (sendResponse s t).sendQueue = s.sendQueue ++ [(toDict t, t.address)] := rfl

theorem sendResponse_timeout (s : Server) (t : TMsg) :
    (sendResponse s t).timeout = s.timeout := rfl

theorem updateClient_sendQueue (s : Server) (i a : Nat) :
    (updateClient s i a).sendQueue = s.sendQueue := by
  unfold updateClient
  cases dictGet i s.clients <;> rfl

theorem updateClient_messageCache (s : Server) (i a : Nat) :
    (updateClient s i a).messageCache = s.messageCache := by
  unfold updateClient
  cases dictGet i s.clients <;> rfl

theorem updateClient_nextId (s : Server) (i a : Nat) :
    (updateClient s i a).nextId = s.nextId := by
  unfold updateClient
  cases dictGet i s.clients <;> rfl

theorem updateClient_timeout (s : Server) (i a : Nat) :
    (updateClient s i a).timeout = s.timeout := by
  unfold updateClient
  cases dictGet i s.clients <;> rfl

theorem updateClient_clients_of_some {s : Server} {i : Nat} {c : Client}
    (a : Nat) (h : dictGet i s.clients = some c) :
    (updateClient s i a).clients =
      dictSet i { c with address := a } s.clients := by
  unfold updateClient
  rw [h]

theorem updateClient_lookup_self {s : Server} {i : Nat} {c : Client}
    (a : Nat) (h : dictGet i s.clients = some c) :
    dictGet i (updateClient s i a).clients = some { c with address := a } := by
  rw [updateClient_clients_of_some a h, dictGet_dictSet_self]

theorem cacheMessage_clients (s : Server) (cid : Nat) (mid : Option Nat)
    (now : Int) : (cacheMessage s cid mid now).clients = s.clients := rfl

theorem cacheMessage_sendQueue (s : Server) (cid : Nat) (mid : Option Nat)
    (now : Int) : (cacheMessage s cid mid now).sendQueue = s.sendQueue := rfl

theorem cacheMessage_messageCache (s : Server) (cid : Nat) (mid : Option Nat)
    (now : Int) :
    (cacheMessage s cid mid now).messageCache =
      dictSet (cid, mid) now s.messageCache := rfl

theorem isInCache_sendResponse (s : Server) (t : TMsg) (cid : Nat)
    (mid : Option Nat) : isInCache (sendResponse s t) cid mid = isInCache s cid mid := rfl

theorem isInCache_updateClient (s : Server) (i a cid : Nat) (mid : Option Nat) :
    isInCache (updateClient s i a) cid mid = isInCache s cid mid := by
  unfold isInCache
  rw [updateClient_messageCache]

theorem isInCache_cacheMessage_self (s : Server) (cid : Nat) (mid : Option Nat)
    (now : Int) : isInCache (cacheMessage s cid mid now) cid mid = true := by
  unfold isInCache
  rw [cacheMessage_messageCache, dictGet_dictSet_self]
  rfl

theorem fromBytes_dgOf_handshakeReq (a : Nat) :
    fromBytes (dgOf (.handshakeReq a)) = .ok (some (.handshakeReq a)) := rfl

theorem fromBytes_dgOf_heartbeat (a i : Nat) :
    fromBytes (dgOf (.heartbeat a i)) = .error .keyErr := rfl

theorem fromBytes_dgOf_general (a i m : Nat) (d : String) (rel : Bool) :
    fromBytes (dgOf (.generalMsg a d i rel (some m))) =
      .ok (some (.generalMsg a d i rel (some m))) := rfl

theorem processOne_reliable_fresh {s : Server} {cid : Nat} {c : Client}
    (now : Int) (a m : Nat) (d : String)
    (hc : dictGet cid s.clients = some c)
    (hm : isInCache s cid (some m) = false) :
    processOne now s (.generalMsg a d cid true (some m)) =
      .ok (cacheMessage
            (sendResponse (updateClient s cid a) (.generalResp a cid (some m)))
            cid (some m) now) [d] := by
  have hm2 : isInCache
      (sendResponse (updateClient s cid a) (.generalResp a cid (some m)))
      cid (some m) = false := by
    rw [isInCache_sendResponse, isInCache_updateClient]
    exact hm
  simp [processOne, hc, hm2]

theorem processOne_reliable_dup {s : Server} {cid : Nat} {c : Client}
    (now : Int) (a m : Nat) (d : String)
    (hc : dictGet cid s.clients = some c)
    (hm : isInCache s cid (some m) = true) :
    processOne now s (.generalMsg a d cid true (some m)) =
      .ok (sendResponse (updateClient s cid a) (.generalResp a cid (some m)))
        [] := by
  have hm2 : isInCache
      (sendResponse (updateClient s cid a) (.generalResp a cid (some m)))
      cid (some m) = true := by
    rw [isInCache_sendResponse, isInCache_updateClient]
    exact hm
  simp [processOne, hc, hm2]

/-- A concrete client record used by closed witness theorems: identity 1,
endpoint 10, last seen at time 0. -/
def exClient : Client := ⟨1, 10, 0⟩

/-- A concrete server state used by closed witness theorems: defaults of
`Server.__init__` (created at time 0) after one client was registered. -/
def exServer : Server :=
  { timeout := 5, messageTimeout := 10, cleanupPeriod := 5,
    lastCleanup := 0, nextId := 1, sendQueue := [],
    clients := [(1, exClient)], messageCache := [] }

/-- C2: for a session known to the registry, processing the same reliable
message twice — within one cycle or across two cycles — delivers the
payload exactly once and enqueues exactly two general-response
acknowledgments, each carrying the request's sequence number; the
acknowledgment for the duplicate is enqueued although its payload is
suppressed. -/
theorem C2_duplicate_reliable_once_two_acks
    (now now2 : Int) (s : Server) (a cid m : Nat) (d : String) (c : Client)
    (hc : dictGet cid s.clients = some c)
    (hm : isInCache s cid (some m) = false) :
    (∃ s2, getAll now s [dgOf (.generalMsg a d cid true (some m)),
                         dgOf (.generalMsg a d cid true (some m))] =
        .ok s2 [d] ∧
      s2.sendQueue = s.sendQueue ++
        [(toDict (.generalResp a cid (some m)), a),
         (toDict (.generalResp a cid (some m)), a)]) ∧
    (∃ s1 s2,
      getAll now s [dgOf (.generalMsg a d cid true (some m))] = .ok s1 [d] ∧
      s1.sendQueue = s.sendQueue ++
        [(toDict (.generalResp a cid (some m)), a)] ∧
      getAll now2 s1 [dgOf (.generalMsg a d cid true (some m))] = .ok s2 [] ∧
      s2.sendQueue = s.sendQueue ++
        [(toDict (.generalResp a cid (some m)), a),
         (toDict (.generalResp a cid (some m)), a)]) := by
  have hdec := fromBytes_dgOf_general a cid m d true
  have hstep1 := processOne_reliable_fresh now a m d hc hm
  have hc1 : dictGet cid
      (cacheMessage (sendResponse (updateClient s cid a)
        (TMsg.generalResp a cid (some m))) cid (some m) now).clients =
      some { c with address := a } := by
    rw [cacheMessage_clients, sendResponse_clients]
    exact updateClient_lookup_self a hc
  have hm1 := isInCache_cacheMessage_self
      (sendResponse (updateClient s cid a) (TMsg.generalResp a cid (some m)))
      cid (some m) now
  have hq1 : (cacheMessage (sendResponse (updateClient s cid a)
      (TMsg.generalResp a cid (some m))) cid (some m) now).sendQueue =
      s.sendQueue ++ [(toDict (.generalResp a cid (some m)), a)] := by
    rw [cacheMessage_sendQueue, sendResponse_sendQueue, updateClient_sendQueue]
    rfl
  have hstep2 := processOne_reliable_dup now a m d hc1 hm1
  have hstep2b := processOne_reliable_dup now2 a m d hc1 hm1
  have hq2 : (sendResponse (updateClient (cacheMessage (sendResponse
      (updateClient s cid a) (TMsg.generalResp a cid (some m))) cid (some m)
      now) cid a) (TMsg.generalResp a cid (some m))).sendQueue =
      s.sendQueue ++
        [(toDict (.generalResp a cid (some m)), a),
         (toDict (.generalResp a cid (some m)), a)] := by
    rw [sendResponse_sendQueue, updateClient_sendQueue, hq1,
        List.append_assoc]
    rfl
  constructor
  · refine ⟨sendResponse (updateClient (cacheMessage (sendResponse
        (updateClient s cid a) (TMsg.generalResp a cid (some m))) cid (some m)
        now) cid a) (TMsg.generalResp a cid (some m)), ?_, hq2⟩
    simp [getAll, hdec, hstep1, hstep2]
  · refine ⟨cacheMessage (sendResponse (updateClient s cid a)
        (TMsg.generalResp a cid (some m))) cid (some m) now,
      sendResponse (updateClient (cacheMessage (sendResponse
        (updateClient s cid a) (TMsg.generalResp a cid (some m))) cid (some m)
        now) cid a) (TMsg.generalResp a cid (some m)), ?_, hq1, ?_, hq2⟩
    · simp [getAll, hdec, hstep1]
    · simp [getAll, hdec, hstep2b]

/-- C2 witness: the duplicate-suppression theorem applied to the concrete
one-client server, sequence number 4, payload x, endpoint 20. -/
theorem C2_duplicate_reliable_once_two_acks_witness :
    dictGet 1 exServer.clients = some exClient ∧
    isInCache exServer 1 (some 4) = false ∧
    ((∃ s2, getAll 3 exServer [dgOf (.generalMsg 20 "x" 1 true (some 4)),
                               dgOf (.generalMsg 20 "x" 1 true (some 4))] =
        .ok s2 ["x"] ∧
      s2.sendQueue = exServer.sendQueue ++
        [(toDict (.generalResp 20 1 (some 4)), 20),
         (toDict (.generalResp 20 1 (some 4)), 20)]) ∧
     (∃ s1 s2,
      getAll 3 exServer [dgOf (.generalMsg 20 "x" 1 true (some 4))] =
        .ok s1 ["x"] ∧
      s1.sendQueue = exServer.sendQueue ++
        [(toDict (.generalResp 20 1 (some 4)), 20)] ∧
      getAll 7 s1 [dgOf (.generalMsg 20 "x" 1 true (some 4))] = .ok s2 [] ∧
      s2.sendQueue = exServer.sendQueue ++
        [(toDict (.generalResp 20 1 (some 4)), 20),
         (toDict (.generalResp 20 1 (some 4)), 20)])) :=
  ⟨rfl, rfl,
   C2_duplicate_reliable_once_two_acks 3 7 exServer 20 1 4 "x" exClient rfl rfl⟩

/-- C10: duplicate detection keys on the (identity, sequence number) pair
only: a second reliable message with the same identity and sequence number
but a different payload is still classified as a duplicate, and its payload
never reaches the accepted output. -/
theorem C10_dedup_ignores_payload
    (now : Int) (s : Server) (a cid m : Nat) (d1 d2 : String) (c : Client)
    (hc : dictGet cid s.clients = some c)
    (hm : isInCache s cid (some m) = false)
    (hd : d1 ≠ d2) :
    ∃ s2, getAll now s [dgOf (.generalMsg a d1 cid true (some m)),
                        dgOf (.generalMsg a d2 cid true (some m))] =
        .ok s2 [d1] ∧
      isInCache s2 cid (some m) = true ∧
      d2 ∉ [d1] := by
  have hdec1 := fromBytes_dgOf_general a cid m d1 true
  have hdec2 := fromBytes_dgOf_general a cid m d2 true
  have hstep1 := processOne_reliable_fresh now a m d1 hc hm
  have hc1 : dictGet cid
      (cacheMessage (sendResponse (updateClient s cid a)
        (TMsg.generalResp a cid (some m))) cid (some m) now).clients =
      some { c with address := a } := by
    rw [cacheMessage_clients, sendResponse_clients]
    exact updateClient_lookup_self a hc
  have hm1 := isInCache_cacheMessage_self
      (sendResponse (updateClient s cid a) (TMsg.generalResp a cid (some m)))
      cid (some m) now
  have hstep2 := processOne_reliable_dup now a m d2 hc1 hm1
  refine ⟨sendResponse (updateClient (cacheMessage (sendResponse
      (updateClient s cid a) (TMsg.generalResp a cid (some m))) cid (some m)
      now) cid a) (TMsg.generalResp a cid (some m)), ?_, ?_, ?_⟩
  · simp [getAll, hdec1, hdec2, hstep1, hstep2]
  · rw [isInCache_sendResponse, isInCache_updateClient]
    exact hm1
  · intro hmem
    rw [List.mem_singleton] at hmem
    exact hd hmem.symm

/-- C10 witness: the payload-blind duplicate detection applied to the
concrete one-client server with payloads x then y under one key. -/
theorem C10_dedup_ignores_payload_witness :
    dictGet 1 exServer.clients = some exClient ∧
    isInCache exServer 1 (some 4) = false ∧
    "x" ≠ "y" ∧
    (∃ s2, getAll 3 exServer [dgOf (.generalMsg 20 "x" 1 true (some 4)),
                              dgOf (.generalMsg 20 "y" 1 true (some 4))] =
        .ok s2 ["x"] ∧
      isInCache s2 1 (some 4) = true ∧
      "y" ∉ ["x"]) :=
  ⟨rfl, rfl, by decide,
   C10_dedup_ignores_payload 3 exServer 20 1 4 "x" "y" exClient rfl rfl
     (by decide)⟩

/-- C7: a non-handshake message whose declared identity is absent from the
registry produces no state change at all (no session, no endpoint or
liveness write, no dedup record, no queued response) and no output, both
at the single-message level and through a dispatch cycle. -/
theorem C7_unknown_identity_ignored
    (now : Int) (s : Server) (a i m : Nat) (d : String) (rel : Bool)
    (mid : Option Nat)
    (h : dictGet i s.clients = none) :
    processOne now s (.heartbeat a i) = .ok s [] ∧
    processOne now s (.generalMsg a d i rel mid) = .ok s [] ∧
    processOne now s (.disconnectNotice a i) = .ok s [] ∧
    processOne now s (.generalResp a i mid) = .ok s [] ∧
    getAll now s [dgOf (.generalMsg a d i rel (some m))] = .ok s [] := by
  refine ⟨?_, ?_, ?_, ?_, ?_⟩
  · simp [processOne, h]
  · simp [processOne, h]
  · simp [processOne, h]
  · simp [processOne, h]
  · simp [getAll, fromBytes_dgOf_general, processOne, h]

/-- C7 witness: unknown identity 2 against the concrete one-client server
(which only knows identity 1). -/
theorem C7_unknown_identity_ignored_witness :
    dictGet 2 exServer.clients = none ∧
    (processOne 3 exServer (.heartbeat 20 2) = .ok exServer [] ∧
     processOne 3 exServer (.generalMsg 20 "x" 2 true (some 4)) =
       .ok exServer [] ∧
     processOne 3 exServer (.disconnectNotice 20 2) = .ok exServer [] ∧
     processOne 3 exServer (.generalResp 20 2 (some 4)) = .ok exServer [] ∧
     getAll 3 exServer [dgOf (.generalMsg 20 "x" 2 true (some 4))] =
       .ok exServer []) :=
  ⟨rfl, C7_unknown_identity_ignored 3 exServer 20 2 4 "x" true (some 4) rfl⟩

/-- C1: evaluation at the failing input. Against the claim, an accepted
non-handshake message updates only the session's endpoint; the liveness
timestamp is never written after creation. A heartbeat at time 3 from
endpoint 20 for the client created at time 0 leaves lastSeen at 0 (not 3),
so the maintenance pass at time 6 (timeout 5) evicts the session although
it produced accepted traffic 3 seconds earlier. -/
theorem C1_touch_never_updates_liveness :
    processOne 3 exServer (.heartbeat 20 1) =
      .ok { exServer with clients := [(1, ⟨1, 20, 0⟩)] } [] ∧
    (dictGet 1 ({ exServer with
        clients := [(1, ⟨1, 20, 0⟩)] } : Server).clients).map
      Client.lastSeen = some 0 ∧
    (dictGet 1 ({ exServer with
        clients := [(1, ⟨1, 20, 0⟩)] } : Server).clients).map
      Client.lastSeen ≠ some 3 ∧
    cleanup 6 { exServer with clients := [(1, ⟨1, 20, 0⟩)] } =
      ({ exServer with lastCleanup := 6, clients := [],
                       sendQueue := [(toDict (.disconnectNotice 20 1), 20)] },
       1) := by
  refine ⟨rfl, rfl, by decide, rfl⟩

/-- C3 counterexample: decode after encode does not succeed for every
message kind. The heartbeat serializer inherits the base toDict and drops
the id, so its decode raises KeyError; an encoded handshake response makes
fromBytes call the response constructor with missing arguments (TypeError);
an encoded disconnect notice matches no decoder branch and yields no
message; an encoded general response comes back as a different variant. -/
theorem C3_roundtrip_counterexample :
    fromBytes (dgOf (.heartbeat 7 1)) = .error .keyErr ∧
    fromBytes (dgOf (.handshakeResp 7 1 5)) = .error .typeErr ∧
    fromBytes (dgOf (.disconnectNotice 7 1)) = .ok none ∧
    fromBytes (dgOf (.generalResp 7 1 (some 4))) ≠
      .ok (some (.generalResp 7 1 (some 4))) := by
  refine ⟨rfl, rfl, rfl, ?_⟩
  have hval : fromBytes (dgOf (.generalResp 7 1 (some 4))) =
      .ok (some (.generalMsg 7 "" 1 true (some 4))) := rfl
  rw [hval]
  simp

/-- C3 amended: decode after encode reconstructs every field except the
endpoint (which is replaced by the transport's sender endpoint) exactly
for Handshake-Request and General-Request; an encoded Heartbeat fails to
decode with KeyError, an encoded Handshake-Response fails with TypeError,
an encoded Disconnect-Notice decodes to no message (unrecognized kind),
and an encoded General-Response decodes to a General-Request-shaped
message, losing its response flag. -/
theorem C3_roundtrip_amended (a1 a2 i : Nat) (st : Int) (d : String)
    (rel : Bool) (mid : Option Nat) :
    fromDict a2 (toDict (.handshakeReq a1)) = .ok (some (.handshakeReq a2)) ∧
    fromDict a2 (toDict (.generalMsg a1 d i rel mid)) =
      .ok (some (.generalMsg a2 d i rel mid)) ∧
    fromDict a2 (toDict (.heartbeat a1 i)) = .error .keyErr ∧
    fromDict a2 (toDict (.handshakeResp a1 i st)) = .error .typeErr ∧
    fromDict a2 (toDict (.disconnectNotice a1 i)) = .ok none ∧
    fromDict a2 (toDict (.generalResp a1 i mid)) =
      .ok (some (.generalMsg a2 "" i true mid)) := by
  refine ⟨rfl, ?_, rfl, rfl, rfl, ?_⟩
  · cases mid <;> rfl
  · cases mid <;> rfl

/-- C4: evaluation at the failing input. A decode failure anywhere in the
batch escapes getAll instead of being discarded: with the undecodable
datagram first, the valid datagram behind it is never processed; with it
second, the first datagram's state change persists but the call still
fails and the caller receives no output. An unrecognized kind aborts the
cycle too (fromBytes returns None and the loop dereferences it). -/
theorem C4_decode_failure_aborts_batch :
    getAll 3 exServer [⟨none, 9⟩, dgOf (.generalMsg 20 "x" 1 false none)] =
      .err exServer (.decodeErr .malformed) ∧
    getAll 3 exServer
      [⟨some [("type", .jstr "disconnectNotice"), ("response", .jbool false),
              ("id", .jnum 1)], 9⟩,
       dgOf (.generalMsg 20 "x" 1 false none)] =
      .err exServer .attrErr ∧
    getAll 3 exServer [dgOf (.generalMsg 20 "x" 1 false none), ⟨none, 9⟩] =
      .err { exServer with clients := [(1, ⟨1, 20, 0⟩)] }
        (.decodeErr .malformed) := by
  refine ⟨rfl, rfl, rfl⟩

/-- C8 counterexample: re-recording an existing dedup key is not a no-op.
With the record for key (1, 4) stored at time 5, calling cacheMessage
again at time 9 overwrites the stored receipt timestamp: the dict
assignment replaces the value object, whose received stamp is the new
time, so the later lookup yields 9 and not the first-receipt value 5. -/
theorem C8_rerecord_counterexample :
    dictGet (1, some 4)
      (cacheMessage { exServer with messageCache := [((1, some 4), 5)] }
        1 (some 4) 9).messageCache = some 9 ∧
    dictGet (1, some 4)
      (cacheMessage { exServer with messageCache := [((1, some 4), 5)] }
        1 (some 4) 9).messageCache ≠ some 5 := by
  refine ⟨rfl, by decide⟩

/-- C8 amended: calling record with a key already present replaces that
record in place — the entry count is unchanged and every other key keeps
its timestamp — but the stored receipt timestamp of the key becomes the
new receipt time: last receipt wins, not first. -/
theorem C8_rerecord_last_wins
    (s : Server) (cid : Nat) (mid : Option Nat) (now t : Int)
    (h : dictGet (cid, mid) s.messageCache = some t) :
    dictGet (cid, mid) (cacheMessage s cid mid now).messageCache =
      some now ∧
    (cacheMessage s cid mid now).messageCache.length =
      s.messageCache.length ∧
    (∀ k, k ≠ (cid, mid) →
      dictGet k (cacheMessage s cid mid now).messageCache =
        dictGet k s.messageCache) := by
  refine ⟨?_, ?_, ?_⟩
  · rw [cacheMessage_messageCache, dictGet_dictSet_self]
  · rw [cacheMessage_messageCache]
    exact dictSet_length_of_mem now h
  · intro k hk
    rw [cacheMessage_messageCache, dictGet_dictSet_ne now hk]

/-- C8 witness: the last-receipt-wins behavior applied to the concrete
server holding one dedup record for key (1, 4) stamped 5, re-recorded at
time 9. -/
theorem C8_rerecord_last_wins_witness :
    dictGet (1, some 4) ({ exServer with
        messageCache := [((1, some 4), 5)] } : Server).messageCache =
      some 5 ∧
    dictGet (1, some 4)
      (cacheMessage { exServer with messageCache := [((1, some 4), 5)] }
        1 (some 4) 9).messageCache = some 9 ∧
    (cacheMessage { exServer with messageCache := [((1, some 4), 5)] }
        1 (some 4) 9).messageCache.length =
      ({ exServer with
          messageCache := [((1, some 4), 5)] } : Server).messageCache.length :=
  ⟨rfl,
   (C8_rerecord_last_wins { exServer with
      messageCache := [((1, some 4), 5)] } 1 (some 4) 9 5 rfl).1,
   (C8_rerecord_last_wins { exServer with
      messageCache := [((1, some 4), 5)] } 1 (some 4) 9 5 rfl).2.1⟩

/-- C9 counterexample: with two queued datagrams and a transport that
fails for endpoint 0, flushing attempts only the first entry: its send
fails after it was already popped, the loop aborts, and the second entry
is never attempted — it merely stays queued. -/
theorem C9_flush_counterexample :
    sendAll (fun e => decide (e.2 ≠ 0))
      [(toDict (.heartbeat 0 1), 0), (toDict (.heartbeat 5 1), 5)] =
      ([(toDict (.heartbeat 0 1), 0)], [(toDict (.heartbeat 5 1), 5)],
       false) ∧
    (toDict (.heartbeat 5 1), 5) ∉
      (sendAll (fun e => decide (e.2 ≠ 0))
        [(toDict (.heartbeat 0 1), 0), (toDict (.heartbeat 5 1), 5)]).1 := by
  refine ⟨rfl, by decide⟩

/-- C9 amended: flushing an empty queue is a no-op, and when every
transmission succeeds the flush sends every queued datagram in enqueue
order, emptying the queue; but a transmission failure aborts the flush:
the failing entry was already removed when the failure hit, and the
entries behind it are left queued with no transmission attempted. -/
theorem C9_flush_fifo_amended (f : QEntry → Bool) (q q1 q2 : List QEntry)
    (e : QEntry)
    (hall : ∀ x ∈ q, f x = true)
    (hq1 : ∀ x ∈ q1, f x = true) (he : f e = false) :
    sendAll f [] = ([], [], true) ∧
    sendAll f q = (q, [], true) ∧
    sendAll f (q1 ++ e :: q2) = (q1 ++ [e], q2, false) := by
  have hok : ∀ l : List QEntry, (∀ x ∈ l, f x = true) →
      sendAll f l = (l, [], true) := by
    intro l
    induction l with
    | nil => intro _; rfl
    | cons hd tl ih =>
      intro hl
      have hhd : f hd = true := hl hd (by simp)
      simp [sendAll, hhd, ih (fun x hx => hl x (by simp [hx]))]
  have hfail : ∀ l : List QEntry, (∀ x ∈ l, f x = true) →
      sendAll f (l ++ e :: q2) = (l ++ [e], q2, false) := by
    intro l
    induction l with
    | nil => intro _; simp [sendAll, he]
    | cons hd tl ih =>
      intro hl
      have hhd : f hd = true := hl hd (by simp)
      simp [sendAll, hhd, ih (fun x hx => hl x (by simp [hx]))]
  exact ⟨rfl, hok q hall, hfail q1 hq1⟩

/-- C9 witness: the amended flush behavior applied to concrete queues over
a transport that fails exactly on endpoint 0. -/
theorem C9_flush_fifo_amended_witness :
    (∀ x ∈ [(toDict (.heartbeat 5 1), 5)],
      (fun (e : QEntry) => decide (e.2 ≠ 0)) x = true) ∧
    (fun (e : QEntry) => decide (e.2 ≠ 0)) (toDict (.heartbeat 0 1), 0) =
      false ∧
    (sendAll (fun (e : QEntry) => decide (e.2 ≠ 0)) [] = ([], [], true) ∧
     sendAll (fun (e : QEntry) => decide (e.2 ≠ 0))
       [(toDict (.heartbeat 5 1), 5)] =
       ([(toDict (.heartbeat 5 1), 5)], [], true) ∧
     sendAll (fun (e : QEntry) => decide (e.2 ≠ 0))
       ([(toDict (.heartbeat 5 1), 5)] ++
         (toDict (.heartbeat 0 1), 0) :: [(toDict (.heartbeat 7 1), 7)]) =
       ([(toDict (.heartbeat 5 1), 5)] ++ [(toDict (.heartbeat 0 1), 0)],
        [(toDict (.heartbeat 7 1), 7)], false)) :=
  ⟨by decide, rfl,
   C9_flush_fifo_amended (fun (e : QEntry) => decide (e.2 ≠ 0))
     [(toDict (.heartbeat 5 1), 5)] [(toDict (.heartbeat 5 1), 5)]
     [(toDict (.heartbeat 7 1), 7)] (toDict (.heartbeat 0 1), 0)
     (by decide) (by decide) rfl⟩

theorem cleanupClients_eq (limit : Int) :
    ∀ l : List (Nat × Client),
      cleanupClients limit l =
        (l.filter (fun kc => ! decide (kc.2.lastSeen < limit)),
         (l.filter (fun kc => decide (kc.2.lastSeen < limit))).map
           (fun kc => noticeOf kc.2),
         (l.filter (fun kc => decide (kc.2.lastSeen < limit))).length) := by
  intro l
  induction l with
  | nil => rfl
  | cons hd tl ih =>
    obtain ⟨k, c⟩ := hd
    by_cases h : c.lastSeen < limit
    · simp [cleanupClients, ih, h]
    · simp [cleanupClients, ih, h]

/-- C5: a maintenance pass that is not gated by the cleanup period removes
exactly the sessions whose liveness timestamp is strictly older than now
minus the timeout — a session last seen within the timeout survives —
enqueues exactly one disconnect notice per evicted session, addressed to
its last known endpoint, in registry order with each session visited once,
reports the eviction count, and drops exactly the expired dedup records. -/
theorem C5_cleanup_evicts_exactly_expired
    (now : Int) (s : Server)
    (hgate : ¬ s.lastCleanup > now - s.cleanupPeriod) :
    cleanup now s =
      ({ s with
          lastCleanup := now,
          clients := s.clients.filter
            (fun kc => ! decide (kc.2.lastSeen < now - s.timeout)),
          sendQueue := s.sendQueue ++
            (s.clients.filter
              (fun kc => decide (kc.2.lastSeen < now - s.timeout))).map
              (fun kc => noticeOf kc.2),
          messageCache := s.messageCache.filter
            (fun kv => ! decide (kv.2 < now - s.messageTimeout)) },
       (s.clients.filter
         (fun kc => decide (kc.2.lastSeen < now - s.timeout))).length) := by
  unfold cleanup
  rw [if_neg hgate, cleanupClients_eq]

/-- A concrete two-client server used by the maintenance witness: client 1
last seen at time 0 (stale at time 6), client 2 last seen at time 4
(fresh), one fresh and one expired dedup record. -/
def exServer2 : Server :=
  { timeout := 5, messageTimeout := 10, cleanupPeriod := 5,
    lastCleanup := 0, nextId := 2, sendQueue := [],
    clients := [(1, ⟨1, 10, 0⟩), (2, ⟨2, 11, 4⟩)],
    messageCache := [((1, some 3), 5), ((2, some 1), -5)] }

/-- C5 witness: the maintenance pass at time 6 on the concrete two-client
server evicts exactly the stale client 1 (one disconnect notice to its
endpoint 10), keeps client 2, and drops exactly the expired dedup record. -/
theorem C5_cleanup_evicts_exactly_expired_witness :
    ¬ exServer2.lastCleanup > 6 - exServer2.cleanupPeriod ∧
    cleanup 6 exServer2 =
      ({ exServer2 with
          lastCleanup := 6,
          clients := exServer2.clients.filter
            (fun kc => ! decide (kc.2.lastSeen < 6 - exServer2.timeout)),
          sendQueue := exServer2.sendQueue ++
            (exServer2.clients.filter
              (fun kc => decide (kc.2.lastSeen < 6 - exServer2.timeout))).map
              (fun kc => noticeOf kc.2),
          messageCache := exServer2.messageCache.filter
            (fun kv => ! decide (kv.2 < 6 - exServer2.messageTimeout)) },
       (exServer2.clients.filter
         (fun kc => decide (kc.2.lastSeen < 6 - exServer2.timeout))).length) :=
  ⟨by decide, C5_cleanup_evicts_exactly_expired 6 exServer2 (by decide)⟩

/-- Evaluation of the C5 witness scenario to literal values: the surviving
registry, the single notice, and the count are what the filters say. -/
theorem C5_cleanup_concrete_values :
    cleanup 6 exServer2 =
      ({ exServer2 with
          lastCleanup := 6, clients := [(2, ⟨2, 11, 4⟩)],
          sendQueue := [(toDict (.disconnectNotice 10 1), 10)],
          messageCache := [((1, some 3), 5)] }, 1) := rfl

theorem cacheMessage_nextId (s : Server) (cid : Nat) (mid : Option Nat)
    (now : Int) : (cacheMessage s cid mid now).nextId = s.nextId := rfl

theorem dictGet_keys_lt {β : Type} :
    ∀ (l : List (Nat × β)) (bound : Nat),
      (∀ k ∈ l.map Prod.fst, k < bound) → dictGet bound l = none := by
  intro l bound
  induction l with
  | nil => intro _; rfl
  | cons hd tl ih =>
    obtain ⟨k, v⟩ := hd
    intro h
    have hk : k < bound := h k (by simp)
    have hne : ¬ (k = bound) := by omega
    simp [dictGet, hne, ih (fun k2 hk2 => h k2 (by simp [hk2]))]

/-- The handshake responses enqueued for a run of handshake requests from
the given endpoints when the identity counter starts at the given value. -/
def handshakeResponses (tmo : Int) : Nat → List Nat → List QEntry
  | _, [] => []
  | startId, a :: rest =>
      (toDict (.handshakeResp a (startId + 1) tmo), a) ::
        handshakeResponses tmo (startId + 1) rest

theorem processOne_handshakeReq (now : Int) (s : Server) (a : Nat) :
    processOne now s (.handshakeReq a) =
      .ok (sendResponse
        { s with nextId := s.nextId + 1,
                 clients := dictSet (s.nextId + 1) ⟨s.nextId + 1, a, now⟩
                   s.clients }
        (.handshakeResp a (s.nextId + 1) s.timeout)) [] := rfl

theorem getAll_handshakes (now : Int) :
    ∀ (addrs : List Nat) (s : Server),
      (∀ k ∈ s.clients.map Prod.fst, k < s.nextId + 1) →
      ∃ s2,
        getAll now s (addrs.map (fun a => dgOf (.handshakeReq a))) =
          .ok s2 [] ∧
        s2.nextId = s.nextId + addrs.length ∧
        s2.clients.map Prod.fst =
          s.clients.map Prod.fst ++ List.range' (s.nextId + 1) addrs.length ∧
        s2.sendQueue =
          s.sendQueue ++ handshakeResponses s.timeout s.nextId addrs := by
  intro addrs
  induction addrs with
  | nil =>
    intro s hinv
    exact ⟨s, rfl, by simp, by simp, by simp [handshakeResponses]⟩
  | cons a rest ih =>
    intro s hinv
    have hfresh : dictGet (s.nextId + 1) s.clients = none :=
      dictGet_keys_lt s.clients (s.nextId + 1) hinv
    have hclients : (sendResponse
        { s with nextId := s.nextId + 1,
                 clients := dictSet (s.nextId + 1) ⟨s.nextId + 1, a, now⟩
                   s.clients }
        (.handshakeResp a (s.nextId + 1) s.timeout)).clients =
        s.clients ++ [(s.nextId + 1, ⟨s.nextId + 1, a, now⟩)] := by
      show dictSet (s.nextId + 1) (⟨s.nextId + 1, a, now⟩ : Client) s.clients
        = _
      exact dictSet_fresh _ hfresh
    have h1 : (sendResponse
        { s with nextId := s.nextId + 1,
                 clients := dictSet (s.nextId + 1) ⟨s.nextId + 1, a, now⟩
                   s.clients }
        (.handshakeResp a (s.nextId + 1) s.timeout)).nextId =
        s.nextId + 1 := rfl
    have hinv2 : ∀ k ∈ (sendResponse
        { s with nextId := s.nextId + 1,
                 clients := dictSet (s.nextId + 1) ⟨s.nextId + 1, a, now⟩
                   s.clients }
        (.handshakeResp a (s.nextId + 1) s.timeout)).clients.map Prod.fst,
        k < (sendResponse
        { s with nextId := s.nextId + 1,
                 clients := dictSet (s.nextId + 1) ⟨s.nextId + 1, a, now⟩
                   s.clients }
        (.handshakeResp a (s.nextId + 1) s.timeout)).nextId + 1 := by
      intro k hk
      rw [hclients, List.map_append] at hk
      rw [h1]
      rcases List.mem_append.mp hk with hk1 | hk2
      · exact Nat.lt_succ_of_lt (hinv k hk1)
      · simp at hk2
        omega
    obtain ⟨s2, hget, hnid, hkeys, hq⟩ := ih (sendResponse
        { s with nextId := s.nextId + 1,
                 clients := dictSet (s.nextId + 1) ⟨s.nextId + 1, a, now⟩
                   s.clients }
        (.handshakeResp a (s.nextId + 1) s.timeout)) hinv2
    have hstep := processOne_handshakeReq now s a
    refine ⟨s2, ?_, ?_, ?_, ?_⟩
    · simp [getAll, fromBytes_dgOf_handshakeReq, hstep, hget]
    · rw [hnid, h1]
      simp [Nat.add_comm, Nat.add_assoc]
      omega
    · rw [hkeys, h1, hclients, List.map_append, List.append_assoc]
      simp [List.range'_succ]
    · have h2 : (sendResponse
          { s with nextId := s.nextId + 1,
                   clients := dictSet (s.nextId + 1) ⟨s.nextId + 1, a, now⟩
                     s.clients }
          (.handshakeResp a (s.nextId + 1) s.timeout)).sendQueue =
          s.sendQueue ++
            [(toDict (.handshakeResp a (s.nextId + 1) s.timeout), a)] := rfl
      have h3 : (sendResponse
          { s with nextId := s.nextId + 1,
                   clients := dictSet (s.nextId + 1) ⟨s.nextId + 1, a, now⟩
                     s.clients }
          (.handshakeResp a (s.nextId + 1) s.timeout)).timeout =
          s.timeout := rfl
      rw [hq, h2, h3, h1, List.append_assoc]
      simp [handshakeResponses]

/-- C6: session creation always succeeds and consults no existing
identity: a run of N handshake requests against a fresh server registers
exactly the identities 1..N in order — pairwise distinct, strictly
increasing, starting at 1 — and enqueues the matching handshake responses;
moreover the identity counter never decreases on any processed message, so
an identity is never reused for the lifetime of the process. -/
theorem C6_handshake_ids_distinct_increasing (now t0 : Int)
    (addrs : List Nat) :
    (∃ s2,
      getAll now (initServer t0)
        (addrs.map (fun a => dgOf (.handshakeReq a))) = .ok s2 [] ∧
      s2.clients.map Prod.fst = List.range' 1 addrs.length ∧
      s2.sendQueue = handshakeResponses 5 0 addrs ∧
      s2.nextId = addrs.length) ∧
    List.Pairwise (· < ·) (List.range' 1 addrs.length) ∧
    (addrs ≠ [] → (List.range' 1 addrs.length).head? = some 1) ∧
    (∀ (n2 : Int) (st : Server) (t : TMsg),
      st.nextId ≤ (processOne n2 st t).state.nextId) := by
  refine ⟨?_, List.pairwise_lt_range' 1 addrs.length, ?_, ?_⟩
  · obtain ⟨s2, hget, hnid, hkeys, hq⟩ :=
      getAll_handshakes now addrs (initServer t0) (by simp [initServer])
    refine ⟨s2, hget, ?_, ?_, ?_⟩
    · rw [hkeys]
      simp [initServer]
    · rw [hq]
      simp [initServer]
    · rw [hnid]
      simp [initServer]
  · intro hne
    cases addrs with
    | nil => exact absurd rfl hne
    | cons a rest => simp [List.range'_succ]
  · intro n2 st t
    cases t with
    | handshakeReq a2 =>
      have h : (processOne n2 st (.handshakeReq a2)).state.nextId =
          st.nextId + 1 := rfl
      omega
    | handshakeResp a2 i2 st2 =>
      have h : (processOne n2 st (.handshakeResp a2 i2 st2)).state.nextId =
          st.nextId + 1 := rfl
      omega
    | heartbeat a2 i2 =>
      cases h : dictGet i2 st.clients with
      | none => simp [processOne, h, StepResult.state]
      | some c =>
        simp [processOne, h, StepResult.state, updateClient_nextId]
    | disconnectNotice a2 i2 =>
      cases h : dictGet i2 st.clients with
      | none => simp [processOne, h, StepResult.state]
      | some c =>
        simp [processOne, h, StepResult.state, updateClient_nextId]
    | generalMsg a2 d2 i2 rel2 mid2 =>
      cases h : dictGet i2 st.clients with
      | none => simp [processOne, h, StepResult.state]
      | some c =>
        cases rel2 with
        | false => simp [processOne, h, StepResult.state, updateClient_nextId]
        | true =>
          cases hm : isInCache (sendResponse (updateClient st i2 a2)
              (.generalResp a2 i2 mid2)) i2 mid2 with
          | false =>
            simp [processOne, h, hm, StepResult.state, cacheMessage_nextId,
                  sendResponse_nextId, updateClient_nextId]
          | true =>
            simp [processOne, h, hm, StepResult.state, sendResponse_nextId,
                  updateClient_nextId]
    | generalResp a2 i2 mid2 =>
      cases h : dictGet i2 st.clients with
      | none => simp [processOne, h, StepResult.state]
      | some c =>
        cases hm : isInCache (sendResponse (updateClient st i2 a2)
            (.generalResp a2 i2 mid2)) i2 mid2 with
        | false =>
          simp [processOne, h, hm, StepResult.state, cacheMessage_nextId,
                sendResponse_nextId, updateClient_nextId]
        | true =>
          simp [processOne, h, hm, StepResult.state, sendResponse_nextId,
                updateClient_nextId]
